import Mathlib

/-!
# GeoJSON datasource: spatially indexed feature store

A shallow embedding of `plugins/input/geojson/geojson_datasource.cpp`:
the constructor, `initialise_index`, `parse_geojson`, `get_geometry_type`,
`envelope` and `features`, for the `BOOST_VERSION >= 105600` branch (the one
that bulk-loads the r-tree from a vector of values).

Conventions of the embedding.

* `double` coordinates are rationals. The embedded code only copies and compares
  coordinates, which is exact on finite doubles; NaN and infinities are not
  represented.
* `std::size_t` is `Nat`; `unsigned` is `Nat` reduced modulo `2 ^ 32`.
* A `throw` is the `error` case of `Except`.
* Collaborators whose code is not part of the translated file (the grammars, the
  file system, `to_ds_type`, the default constructor of `box2d`) are fields of
  `env` or explicit arguments.
-/

namespace mapnik

/-! ## box2d -/

/-- Modelled from the spec: the Envelope type `box2d<double>` (declared in
`mapnik/box2d.hpp`, which is not among the translated sources): an axis-aligned
box with the four coordinates minX, minY, maxX, maxY. -/
structure box2d where
  minx_ : ℚ
  miny_ : ℚ
  maxx_ : ℚ
  maxy_ : ℚ
deriving DecidableEq

namespace box2d

/-- Modelled from the spec: `box2d::valid` (missing `mapnik/box2d.hpp`); a box is
valid iff minX ≤ maxX and minY ≤ maxY. -/
def valid (b : box2d) : Bool :=
  decide (b.minx_ ≤ b.maxx_) && decide (b.miny_ ≤ b.maxy_)

/-- Modelled from the spec: `box2d::intersects` (missing `mapnik/box2d.hpp`);
closed-interval intersection, boxes sharing only a boundary edge or point
intersect. -/
def intersects (b other : box2d) : Bool :=
  !(decide (other.minx_ > b.maxx_) || decide (other.maxx_ < b.minx_) ||
    decide (other.miny_ > b.maxy_) || decide (other.maxy_ < b.miny_))

/-- Modelled from the spec: `box2d::expand_to_include` (missing
`mapnik/box2d.hpp`); every side moves outwards as far as `other` requires. -/
def expand_to_include (b other : box2d) : box2d :=
  { minx_ := min b.minx_ other.minx_
    miny_ := min b.miny_ other.miny_
    maxx_ := max b.maxx_ other.maxx_
    maxy_ := max b.maxy_ other.maxy_ }

/-- The box `b` encloses the box `other` (used in statements only). -/
def contains (b other : box2d) : Prop :=
  b.minx_ ≤ other.minx_ ∧ b.miny_ ≤ other.miny_ ∧
    other.maxx_ ≤ b.maxx_ ∧ other.maxy_ ≤ b.maxy_

instance (b other : box2d) : Decidable (b.contains other) := by
  unfold contains; infer_instance

end box2d

/-! ## Attribute values and descriptors -/

/-- The attribute types of `mapnik::eAttributeType` used by the plugin. -/
inductive eAttributeType
  | Integer
  | Double
  | Boolean
  | String
deriving DecidableEq

/-- The alternatives an attribute value is visited with: one constructor per
overload of `attr_value_converter::operator()`. -/
inductive value
  | value_integer (v : Int)
  | double (v : ℚ)
  | float (v : ℚ)
  | bool (v : Bool)
  | string (v : String)
  | value_unicode_string (v : String)
  | value_null
deriving DecidableEq

/-- The visitor `attr_value_converter` (lines 58-94). -/
def attr_value_converter : value → eAttributeType
  | .value_integer _ => .Integer
  | .double _ => .Double
  | .float _ => .Double
  | .bool _ => .Boolean
  | .string _ => .String
  | .value_unicode_string _ => .String
  | .value_null => .String

/-- An entry of the attribute schema: `mapnik::attribute_descriptor(name, type)`. -/
structure attribute_descriptor where
  name : String
  type : eAttributeType
deriving DecidableEq

/-- The schema holder `mapnik::layer_descriptor(name, encoding)` with its ordered
descriptor vector. -/
structure layer_descriptor where
  name : String
  encoding : String
  descriptors : List attribute_descriptor
deriving DecidableEq

/-- The method `layer_descriptor::add_descriptor`: appends to the descriptor
vector. -/
def layer_descriptor.add_descriptor (d : layer_descriptor) (a : attribute_descriptor) :
    layer_descriptor :=
  { d with descriptors := d.descriptors ++ [a] }

/-! ## Features, index entries, the spatial index -/

/-- A parsed feature as far as the datasource looks at it: its id, its ordered
(name, value) pairs (what `for (auto const& kv : *f)` iterates over), the box
returned by `f->envelope()` and the geometry container `f->paths()`, of which
only the geometry type codes are kept. -/
structure feature where
  id : Nat
  kvs : List (String × value)
  envelope : box2d
  paths : List Nat
deriving DecidableEq

/-- The index value `item_type = std::pair<box_type, std::pair<std::size_t, std::size_t>>`.
Cached mode: (envelope, (position in `features_`, 0)).
Lazy mode: (envelope, (byte offset, byte length)). -/
abbrev item_type := box2d × (Nat × Nat)

/-- The sequence `mapnik::json::boxes` filled by the bounding-box grammar. -/
abbrev boxes := List item_type

/-- Modelled from the spec: the r-tree `spatial_index_type`
(`boost::geometry::index::rtree`), by its contract: it owns the snapshot of
entries it was bulk-built from. -/
structure spatial_index_type where
  values : List item_type
deriving DecidableEq

/-- Modelled from the spec: `tree_->query(intersects(box), back_inserter(index_array))`
reports the entries whose stored box intersects `box`. The r-tree promises no
order; the model reports them in build order. -/
def spatial_index_type.query (t : spatial_index_type) (box : box2d) : List item_type :=
  t.values.filter (fun v => v.1.intersects box)

/-! ## The datasource -/

/-- The exceptions thrown by the translated functions, one constructor per
`throw` site. -/
inductive datasource_exception
  /-- The datasource_exception "GeoJSON Plugin: missing <file> parameter". -/
  | missing_file_parameter
  /-- The datasource_exception "GeoJSON Plugin: could not open: <filename>". -/
  | could_not_open (filename : String)
  /-- The datasource_exception "GeoJSON Plugin: could not parse: <filename>". -/
  | could_not_parse (filename : String)
  /-- The std::runtime_error "Failed to parse geojson feature". -/
  | failed_to_parse_feature
  /-- The datasource_exception "geojson_datasource: Failed parse GeoJSON file from
  in-memory string". -/
  | failed_parse_in_memory
  /-- The datasource_exception "geojson_datasource: Failed parse GeoJSON file
  <filename>". -/
  | failed_parse_file (filename : String)
deriving DecidableEq

/-- The constructor argument `mapnik::parameters`, by the two typed lookups the
constructor performs: `params.get<std::string>(key)` and
`params.get<mapnik::boolean_type>(key)`. -/
structure parameters where
  get_string : String → Option String
  get_boolean : String → Option Bool

/-- The collaborators of the datasource that live outside the translated file. -/
structure env where
  /-- The value of a default-constructed `box2d<double>`, as in `extent_()`. -/
  box2d_default : box2d
  /-- The value the member `cache_features_` has before the constructor body runs. -/
  cache_features_default : Bool
  /-- The class `mapnik::util::file`: the content of the file of that name, if it opens. -/
  open_file : String → Option String
  /-- The grammar `fc_grammar`: the features of a feature collection, if it parses. -/
  fc_grammar : String → Option (List feature)
  /-- The grammar `extract_bounding_box_grammar`: (box, (offset, size)) per feature. -/
  bbox_grammar : String → Option boxes
  /-- The grammar `feature_grammar`: one feature from the text of its byte range. -/
  feature_grammar : String → Option feature

/-- The data members of `geojson_datasource`. -/
structure geojson_datasource where
  desc_ : layer_descriptor
  filename_ : String
  inline_string_ : String
  extent_ : box2d
  features_ : List feature
  tree_ : Option spatial_index_type
  cache_features_ : Bool
deriving DecidableEq

/-- The two feature sets `features` can hand out, with the arguments they are
constructed from. -/
inductive featureset
  | geojson_featureset (features : List feature) (index_array : List item_type)
  | large_geojson_featureset (filename : String) (index_array : List item_type)
deriving DecidableEq

/-- The query argument `mapnik::query`: the box and the requested property names. -/
structure query where
  bbox : box2d
  names : List String

namespace geojson_datasource

/-- The descriptors one feature contributes to the schema: the loop
`for (auto const& kv : *f) desc_.add_descriptor(attribute_descriptor(get<0>(kv),
apply_visitor(attr_value_converter(), get<1>(kv))))`. -/
def add_descriptors (d : layer_descriptor) (f : feature) : layer_descriptor :=
  f.kvs.foldl (fun d kv => d.add_descriptor ⟨kv.1, attr_value_converter kv.2⟩) d

/-- One pass of the loop body of `initialise_index` (lines 172-220). -/
def initialise_index_item (e : env) (ds : geojson_datasource) (item : item_type) :
    Except datasource_exception geojson_datasource :=
  let box := item.1
  let geometry_index := item.2
  if !ds.extent_.valid then
    match e.open_file ds.filename_ with
    | none => .error (.could_not_open ds.filename_)
    | some file =>
      let json := (file.drop geometry_index.1).take geometry_index.2
      match e.feature_grammar json with
      | none => .error .failed_to_parse_feature
      | some feature =>
        .ok { ds with extent_ := box, desc_ := add_descriptors ds.desc_ feature }
  else
    .ok { ds with extent_ := ds.extent_.expand_to_include box }

/-- The loop `for (auto const& item : boxes)` of `initialise_index`. -/
def initialise_index_loop (e : env) :
    geojson_datasource → boxes → Except datasource_exception geojson_datasource
  | ds, [] => .ok ds
  | ds, item :: rest =>
    match initialise_index_item e ds item with
    | .error x => .error x
    | .ok ds1 => initialise_index_loop e ds1 rest

/-- The method `geojson_datasource::initialise_index(start, end)` (lines 157-221). -/
def initialise_index (e : env) (ds : geojson_datasource) (buffer : String) :
    Except datasource_exception geojson_datasource :=
  match e.bbox_grammar buffer with
  | none => .error (.could_not_parse ds.filename_)
  | some bs => initialise_index_loop e { ds with tree_ := some ⟨bs⟩ } bs

/-- The loop state of `parse_geojson`: the members written so far, the vector
`values` and the counter `geometry_index`. -/
structure parse_state where
  extent_ : box2d
  desc_ : layer_descriptor
  values : List item_type
  geometry_index : Nat
deriving DecidableEq

/-- One pass of the loop `for (mapnik::feature_ptr const& f : features_)` of
`parse_geojson` (lines 247-273). -/
def parse_geojson_step (s : parse_state) (f : feature) : parse_state :=
  let box := f.envelope
  let s1 : parse_state :=
    if box.valid then
      if s.geometry_index = 0 then
        { s with extent_ := box, desc_ := add_descriptors s.desc_ f }
      else
        { s with extent_ := s.extent_.expand_to_include box }
    else s
  { s1 with
    values := s1.values ++ [(box, (s1.geometry_index, 0))]
    geometry_index := s1.geometry_index + 1 }

/-- The whole loop of `parse_geojson`. -/
def parse_geojson_loop (s : parse_state) (fs : List feature) : parse_state :=
  fs.foldl parse_geojson_step s

/-- The method `geojson_datasource::parse_geojson(buffer)` (lines 223-280). -/
def parse_geojson (e : env) (ds : geojson_datasource) (buffer : String) :
    Except datasource_exception geojson_datasource :=
  match e.fc_grammar buffer with
  | none =>
    if !ds.inline_string_.isEmpty then .error .failed_parse_in_memory
    else .error (.failed_parse_file ds.filename_)
  | some parsed =>
    let features_ := ds.features_ ++ parsed
    let s := parse_geojson_loop ⟨ds.extent_, ds.desc_, [], 0⟩ features_
    .ok { ds with
          features_ := features_
          extent_ := s.extent_
          desc_ := s.desc_
          tree_ := some ⟨s.values⟩ }

/-- The member initialisers of the constructor (lines 97-105). -/
def init (e : env) (params : parameters) : geojson_datasource :=
  { desc_ := ⟨"geojson", (params.get_string "encoding").getD "utf-8", []⟩
    filename_ := ""
    inline_string_ := ""
    extent_ := e.box2d_default
    features_ := []
    tree_ := none
    cache_features_ := e.cache_features_default }

/-- The first half of the constructor body (lines 107-122): reads `inline`, or
else `file` and `base`. -/
def read_source (ds : geojson_datasource) (params : parameters) :
    Except datasource_exception geojson_datasource :=
  match params.get_string "inline" with
  | some inline_string => .ok { ds with inline_string_ := inline_string }
  | none =>
    match params.get_string "file" with
    | none => .error .missing_file_parameter
    | some file =>
      match params.get_string "base" with
      | some base => .ok { ds with filename_ := base ++ "/" ++ file }
      | none => .ok { ds with filename_ := file }

/-- The second half of the constructor body (lines 123-148): ingestion. -/
def ingest (e : env) (ds : geojson_datasource) (params : parameters) :
    Except datasource_exception geojson_datasource :=
  if !ds.inline_string_.isEmpty then
    parse_geojson e ds ds.inline_string_
  else
    match e.open_file ds.filename_ with
    | none => .error (.could_not_open ds.filename_)
    | some file_buffer =>
      let cache_features_ := (params.get_boolean "cache_features").getD true
      let ds1 := { ds with cache_features_ := cache_features_ }
      if cache_features_ then parse_geojson e ds1 file_buffer
      else initialise_index e ds1 file_buffer

/-- The constructor `geojson_datasource::geojson_datasource(params)` (lines 96-149). -/
def create (e : env) (params : parameters) :
    Except datasource_exception geojson_datasource :=
  match read_source (init e params) params with
  | .error x => .error x
  | .ok ds => ingest e ds params

/-- The method `geojson_datasource::envelope()` (lines 316-319). -/
def envelope (ds : geojson_datasource) : box2d := ds.extent_

/-- The method `geojson_datasource::get_descriptor()` (lines 321-324). -/
def get_descriptor (ds : geojson_datasource) : layer_descriptor := ds.desc_

end geojson_datasource

/-! ## Queries -/

/-- The library routine `std::sort(first, last, comp)`, which fixes the result
only up to the order of equivalent elements: insertion of one element, keeping
it behind every element that `comp` puts before it. -/
def std_sort_insert {α : Type} (comp : α → α → Bool) (x : α) : List α → List α
  | [] => [x]
  | y :: ys => if comp y x then y :: std_sort_insert comp x ys else x :: y :: ys

/-- The library routine `std::sort` as an insertion sort with the caller's comparator. -/
def std_sort {α : Type} (comp : α → α → Bool) (l : List α) : List α :=
  l.foldr (std_sort_insert comp) []

/-- The comparator of the lazy branch of `features` (lines 345-348):
`item0.second.first < item1.second.first`. -/
def offset_less (item0 item1 : item_type) : Bool :=
  decide (item0.2.1 < item1.2.1)

/-- The method `geojson_datasource::features(q)` (lines 326-364); `none` is the
empty `featureset_ptr()`. -/
def geojson_datasource.features (ds : geojson_datasource) (q : query) : Option featureset :=
  let box := q.bbox
  if ds.extent_.intersects box then
    match ds.tree_ with
    | some tree =>
      let index_array := tree.query box
      if ds.cache_features_ then
        some (.geojson_featureset ds.features_ index_array)
      else
        some (.large_geojson_featureset ds.filename_ (std_sort offset_less index_array))
    | none => none
  else none

/-- The handles a feature set (or the empty pointer) will realize, in order. -/
def handles : Option featureset → List item_type
  | none => []
  | some (.geojson_featureset _ index_array) => index_array
  | some (.large_geojson_featureset _ index_array) => index_array

/-! ## Geometry type -/

/-- The loop of `get_geometry_type` (lines 294-307) over the features it visits,
carrying `result` and `multi_type`. `to_ds_type f result` stands for the value of
`result` after `mapnik::util::to_ds_type(f->paths(), result)`; `Collection` is
`mapnik::datasource::Collection`. Geometry types are their integer codes. -/
def get_geometry_type_loop (to_ds_type : feature → Option Nat → Option Nat) (Collection : Nat) :
    List feature → Option Nat → Nat → Option Nat
  | [], result, _ => result
  | f :: rest, result, multi_type =>
    match to_ds_type f result with
    | some type =>
      if multi_type > 0 ∧ multi_type ≠ type then some Collection
      else get_geometry_type_loop to_ds_type Collection rest (some type) type
    | none => get_geometry_type_loop to_ds_type Collection rest none multi_type

/-- The method `geojson_datasource::get_geometry_type()` (lines 289-309):
`unsigned num_features = features_.size()` and the loop
`for (i = 0; i < num_features && i < 5; ++i)` visit the first
`min num_features 5` features. -/
def geojson_datasource.get_geometry_type (to_ds_type : feature → Option Nat → Option Nat)
    (Collection : Nat) (ds : geojson_datasource) : Option Nat :=
  let num_features := ds.features_.length % 2 ^ 32
  get_geometry_type_loop to_ds_type Collection
    (ds.features_.take (min num_features 5)) none 0

/-! ## Concrete scenarios -/

/-- A feature without attributes whose envelope is the given box and whose
geometry is one point (type code 1). -/
def point_feature (id : Nat) (b : box2d) : feature :=
  { id := id, kvs := [], envelope := b, paths := [1] }

/-- The three features of the spec scenario, with envelopes [0,0,1,1], [5,5,6,6]
and [10,10,11,11]. -/
def scenario_features : List feature :=
  [point_feature 1 ⟨0, 0, 1, 1⟩, point_feature 2 ⟨5, 5, 6, 6⟩,
    point_feature 3 ⟨10, 10, 11, 11⟩]

/-- An environment in which every document parses to the given features and to
the given boxes, every file opens with the given content, a default box is
(0,0,-1,-1) and `cache_features_` starts as true. -/
def scenario_env (fs : List feature) (bs : boxes) (content : String)
    (first : Option feature) : env :=
  { box2d_default := ⟨0, 0, -1, -1⟩
    cache_features_default := true
    open_file := fun _ => some content
    fc_grammar := fun _ => some fs
    bbox_grammar := fun _ => some bs
    feature_grammar := fun _ => first }

/-- Parameters with no key at all. -/
def no_parameters : parameters :=
  { get_string := fun _ => none, get_boolean := fun _ => none }

/-- The query box [0.5,0.5,5.5,5.5] of the spec scenario. -/
def scenario_query : query :=
  { bbox := ⟨1/2, 1/2, 11/2, 11/2⟩, names := [] }

/-- A feature without geometry: its envelope is the default box (0,0,-1,-1), which
is not valid, and its geometry container is empty. -/
def feature_without_geometry (id : Nat) (kvs : List (String × value)) : feature :=
  { id := id, kvs := kvs, envelope := ⟨0, 0, -1, -1⟩, paths := [] }

/-- A feature list whose first feature has no geometry and whose second feature
has the envelope [5,5,6,6] and two attributes. -/
def late_geometry_features : List feature :=
  [feature_without_geometry 1 [("name", .value_unicode_string "a")],
    { id := 2, kvs := [("name", .value_unicode_string "b"), ("pop", .value_integer 3)],
      envelope := ⟨5, 5, 6, 6⟩, paths := [1] }]

/-- A feature list whose first feature has the envelope [-5,-5,5,5] and whose
second feature has no geometry. -/
def trailing_empty_features : List feature :=
  [point_feature 1 ⟨-5, -5, 5, 5⟩, feature_without_geometry 2 []]

/-- The (box, (offset, size)) entries of a three-feature document, listed out of
offset order. -/
def scenario_boxes : boxes :=
  [(⟨10, 10, 11, 11⟩, (80, 30)), (⟨0, 0, 1, 1⟩, (20, 30)), (⟨5, 5, 6, 6⟩, (50, 30))]

/-- A store in lazy mode over `scenario_boxes`, as `initialise_index` leaves it. -/
def lazy_scenario_store : geojson_datasource :=
  { desc_ := ⟨"geojson", "utf-8", []⟩
    filename_ := "scenario.geojson"
    inline_string_ := ""
    extent_ := ⟨0, 0, 11, 11⟩
    features_ := []
    tree_ := some ⟨scenario_boxes⟩
    cache_features_ := false }

/-- A `to_ds_type` that writes the type code of the last geometry of the feature
into `result` and leaves `result` untouched for a feature without geometry. -/
def last_path_type (f : feature) (result : Option Nat) : Option Nat :=
  match f.paths.getLast? with
  | some type => some type
  | none => result

/-- A cached store holding the three point features of the spec scenario. -/
def cached_scenario_store : geojson_datasource :=
  { desc_ := ⟨"geojson", "utf-8", []⟩
    filename_ := ""
    inline_string_ := "x"
    extent_ := ⟨0, 0, 11, 11⟩
    features_ := scenario_features
    tree_ := some ⟨[(⟨0, 0, 1, 1⟩, (0, 0)), (⟨5, 5, 6, 6⟩, (1, 0)),
      (⟨10, 10, 11, 11⟩, (2, 0))]⟩
    cache_features_ := true }

/-- A cached store of two features: a point (type code 1) followed by a feature
whose geometry has the type code 0. -/
def point_then_zero_store : geojson_datasource :=
  { desc_ := ⟨"geojson", "utf-8", []⟩
    filename_ := ""
    inline_string_ := "x"
    extent_ := ⟨0, 0, 6, 6⟩
    features_ := [point_feature 1 ⟨0, 0, 1, 1⟩,
      { id := 2, kvs := [], envelope := ⟨5, 5, 6, 6⟩, paths := [0] }]
    tree_ := some ⟨[(⟨0, 0, 1, 1⟩, (0, 0)), (⟨5, 5, 6, 6⟩, (1, 0))]⟩
    cache_features_ := true }

/-- Parameters that give the `inline` document "x" and, when `cache` is given,
that value for `cache_features`. -/
def inline_parameters (cache : Option Bool) : parameters :=
  { get_string := fun k => if k = "inline" then some "x" else none
    get_boolean := fun k => if k = "cache_features" then cache else none }

/-! ## The spec's reading of envelope and schema -/

/-- The spec's dataset envelope: the fold over an optional-box accumulator in which
the first valid box seeds and every later valid box expands; `none` is the
invalid/empty envelope. -/
def envelope_union (bs : List box2d) : Option box2d :=
  bs.foldl (fun acc b =>
    if b.valid then
      match acc with
      | none => some b
      | some a => some (a.expand_to_include b)
    else acc) none

/-- The spec's brute-force linear scan in cached mode: the handles
(envelope, (position, 0)) of the features whose envelope is valid and intersects
`box`, in feature order. -/
def brute_force_scan (fs : List feature) (box : box2d) : List item_type :=
  ((fs.enumFrom 0).filter
    (fun p => p.2.envelope.valid && p.2.envelope.intersects box)).map
    (fun p => (p.2.envelope, (p.1, 0)))

/-- The ordered (name, type) list of one feature. -/
def schema_of (f : feature) : List attribute_descriptor :=
  f.kvs.map (fun kv => ⟨kv.1, attr_value_converter kv.2⟩)

/-- The spec's schema: that of the first feature with a valid envelope. -/
def first_valid_schema (fs : List feature) : Option (List attribute_descriptor) :=
  (fs.find? (fun f => f.envelope.valid)).map schema_of

/-! ## Lemmas on boxes -/

theorem box2d.valid_iff (b : box2d) :
    b.valid = true ↔ b.minx_ ≤ b.maxx_ ∧ b.miny_ ≤ b.maxy_ := by
  simp [box2d.valid]

theorem box2d.intersects_iff (b other : box2d) :
    b.intersects other = true ↔
      other.minx_ ≤ b.maxx_ ∧ b.minx_ ≤ other.maxx_ ∧
      other.miny_ ≤ b.maxy_ ∧ b.miny_ ≤ other.maxy_ := by
  simp [box2d.intersects, not_or, and_assoc]

theorem box2d.contains_refl (b : box2d) : b.contains b :=
  ⟨le_refl _, le_refl _, le_refl _, le_refl _⟩

theorem box2d.contains_trans {a b c : box2d} (h1 : a.contains b) (h2 : b.contains c) :
    a.contains c :=
  ⟨le_trans h1.1 h2.1, le_trans h1.2.1 h2.2.1, le_trans h2.2.2.1 h1.2.2.1,
    le_trans h2.2.2.2 h1.2.2.2⟩

theorem box2d.expand_contains_left (b other : box2d) :
    (b.expand_to_include other).contains b :=
  ⟨min_le_left _ _, min_le_left _ _, le_max_left _ _, le_max_left _ _⟩

theorem box2d.expand_contains_right (b other : box2d) :
    (b.expand_to_include other).contains other :=
  ⟨min_le_right _ _, min_le_right _ _, le_max_right _ _, le_max_right _ _⟩

theorem box2d.expand_least {a b c : box2d} (h1 : c.contains a) (h2 : c.contains b) :
    c.contains (a.expand_to_include b) :=
  ⟨le_min h1.1 h2.1, le_min h1.2.1 h2.2.1, max_le h1.2.2.1 h2.2.2.1,
    max_le h1.2.2.2 h2.2.2.2⟩

theorem box2d.expand_valid {a : box2d} (b : box2d) (h : a.valid = true) :
    (a.expand_to_include b).valid = true := by
  rw [box2d.valid_iff] at h ⊢
  exact ⟨le_trans (min_le_left _ _) (le_trans h.1 (le_max_left _ _)),
    le_trans (min_le_left _ _) (le_trans h.2 (le_max_left _ _))⟩

theorem box2d.intersects_of_contains {a b q : box2d} (h : a.contains b)
    (hq : b.intersects q = true) : a.intersects q = true := by
  rw [box2d.intersects_iff] at hq ⊢
  exact ⟨le_trans hq.1 h.2.2.1, le_trans h.1 hq.2.1, le_trans hq.2.2.1 h.2.2.2,
    le_trans h.2.1 hq.2.2.2⟩

theorem box2d.contains_antisymm {a b : box2d} (h1 : a.contains b) (h2 : b.contains a) :
    a = b := by
  cases a; cases b
  simp only [box2d.contains] at h1 h2
  simp only [box2d.mk.injEq]
  exact ⟨le_antisymm h1.1 h2.1, le_antisymm h1.2.1 h2.2.1, le_antisymm h2.2.2.1 h1.2.2.1,
    le_antisymm h2.2.2.2 h1.2.2.2⟩

/-! ## Lemmas on the loop of `parse_geojson` -/

namespace geojson_datasource

theorem parse_geojson_loop_nil (s : parse_state) : parse_geojson_loop s [] = s := rfl

theorem parse_geojson_loop_cons (s : parse_state) (f : feature) (fs : List feature) :
    parse_geojson_loop s (f :: fs) = parse_geojson_loop (parse_geojson_step s f) fs := rfl

theorem parse_geojson_step_geometry_index (s : parse_state) (f : feature) :
    (parse_geojson_step s f).geometry_index = s.geometry_index + 1 := by
  simp only [parse_geojson_step]
  split_ifs <;> rfl

theorem parse_geojson_step_values (s : parse_state) (f : feature) :
    (parse_geojson_step s f).values = s.values ++ [(f.envelope, (s.geometry_index, 0))] := by
  simp only [parse_geojson_step]
  split_ifs <;> rfl

theorem parse_geojson_loop_geometry_index (fs : List feature) (s : parse_state) :
    (parse_geojson_loop s fs).geometry_index = s.geometry_index + fs.length := by
  induction fs generalizing s with
  | nil => rfl
  | cons f fs ih =>
    rw [parse_geojson_loop_cons, ih, parse_geojson_step_geometry_index, List.length_cons]
    omega

/-- The vector `values` after the loop: one entry per feature, in order, whatever
its envelope. -/
theorem parse_geojson_loop_values (fs : List feature) (s : parse_state) :
    (parse_geojson_loop s fs).values =
      s.values ++ (fs.enumFrom s.geometry_index).map (fun p => (p.2.envelope, (p.1, 0))) := by
  induction fs generalizing s with
  | nil => simp [parse_geojson_loop_nil]
  | cons f fs ih =>
    rw [parse_geojson_loop_cons, ih, parse_geojson_step_values,
      parse_geojson_step_geometry_index]
    simp [List.enumFrom]

theorem mem_enumFrom_map_iff (fs : List feature) (n : Nat) (x : item_type) :
    x ∈ (fs.enumFrom n).map (fun p => (p.2.envelope, (p.1, 0))) ↔
      ∃ i, ∃ hi : i < fs.length, x = ((fs.get ⟨i, hi⟩).envelope, (n + i, 0)) := by
  induction fs generalizing n with
  | nil => simp
  | cons f fs ih =>
    simp only [List.enumFrom, List.map_cons, List.mem_cons, ih]
    constructor
    · rintro (h | ⟨i, hi, h⟩)
      · exact ⟨0, by simp, by simpa using h⟩
      · refine ⟨i + 1, by simpa using hi, ?_⟩
        rw [h]
        simp only [List.get_eq_getElem, List.getElem_cons_succ, Prod.mk.injEq, true_and,
          and_true]
        omega
    · rintro ⟨i, hi, h⟩
      cases i with
      | zero => left; simpa using h
      | succ i =>
        right
        refine ⟨i, by simpa using hi, ?_⟩
        rw [h]
        simp only [List.get_eq_getElem, List.getElem_cons_succ, Prod.mk.injEq, true_and,
          and_true]
        omega

/-- Once the counter is past zero the loop only ever expands the extent. -/
theorem parse_geojson_loop_extent_mono (fs : List feature) (s : parse_state)
    (h : 0 < s.geometry_index) :
    (parse_geojson_loop s fs).extent_.contains s.extent_ := by
  induction fs generalizing s with
  | nil => exact box2d.contains_refl _
  | cons f fs ih =>
    rw [parse_geojson_loop_cons]
    have h1 : 0 < (parse_geojson_step s f).geometry_index := by
      rw [parse_geojson_step_geometry_index]; omega
    refine box2d.contains_trans (ih _ h1) ?_
    unfold parse_geojson_step
    have hne : s.geometry_index ≠ 0 := by omega
    by_cases hv : f.envelope.valid = true
    · simp only [hv, hne, if_true, if_false]
      exact box2d.expand_contains_left _ _
    · simp only [hv, if_false, Bool.false_eq_true]
      exact box2d.contains_refl _

/-- A feature with a valid envelope is enclosed by the extent right after its own
pass, whether that pass seeds or expands. -/
theorem parse_geojson_step_contains (s : parse_state) (f : feature)
    (hv : f.envelope.valid = true) :
    (parse_geojson_step s f).extent_.contains f.envelope := by
  unfold parse_geojson_step
  by_cases h0 : s.geometry_index = 0
  · simp only [hv, h0, if_true]
    exact box2d.contains_refl _
  · simp only [hv, h0, if_true, if_false]
    exact box2d.expand_contains_right _ _

/-- The extent after the loop encloses the envelope of every feature with a valid
envelope. -/
theorem parse_geojson_loop_contains (fs : List feature) (s : parse_state)
    (i : Nat) (hi : i < fs.length) (hv : (fs.get ⟨i, hi⟩).envelope.valid = true) :
    (parse_geojson_loop s fs).extent_.contains (fs.get ⟨i, hi⟩).envelope := by
  induction fs generalizing s i with
  | nil => simp at hi
  | cons f fs ih =>
    rw [parse_geojson_loop_cons]
    cases i with
    | zero =>
      have h1 : 0 < (parse_geojson_step s f).geometry_index := by
        rw [parse_geojson_step_geometry_index]; omega
      exact box2d.contains_trans (parse_geojson_loop_extent_mono fs _ h1)
        (parse_geojson_step_contains s f hv)
    | succ i => exact ih _ i (by simpa using hi) hv

end geojson_datasource

/-! ## Cached mode: queries -/

/-- The store `parse_geojson` leaves behind when the document parses. -/
theorem geojson_datasource.parse_geojson_ok (e : env) (ds : geojson_datasource)
    (buffer : String) (fs : List feature) (hparse : e.fc_grammar buffer = some fs) :
    geojson_datasource.parse_geojson e ds buffer = .ok
      { ds with
        features_ := ds.features_ ++ fs
        extent_ := (geojson_datasource.parse_geojson_loop ⟨ds.extent_, ds.desc_, [], 0⟩
          (ds.features_ ++ fs)).extent_
        desc_ := (geojson_datasource.parse_geojson_loop ⟨ds.extent_, ds.desc_, [], 0⟩
          (ds.features_ ++ fs)).desc_
        tree_ := some ⟨(geojson_datasource.parse_geojson_loop ⟨ds.extent_, ds.desc_, [], 0⟩
          (ds.features_ ++ fs)).values⟩ } := by
  simp only [geojson_datasource.parse_geojson, hparse]

/-- The extent after the loop of `parse_geojson` encloses the envelope of every
listed feature with a valid envelope. -/
theorem geojson_datasource.parse_geojson_loop_contains_mem (fs : List feature)
    (s : geojson_datasource.parse_state) (f : feature) (hf : f ∈ fs)
    (hv : f.envelope.valid = true) :
    (geojson_datasource.parse_geojson_loop s fs).extent_.contains f.envelope := by
  obtain ⟨n, hn⟩ := List.mem_iff_get.mp hf
  have h := geojson_datasource.parse_geojson_loop_contains fs s n.1 n.2
  rw [show (⟨n.1, n.2⟩ : Fin fs.length) = n from rfl, hn] at h
  exact h hv

/-- The handles `features` hands out in cached mode after `parse_geojson`: the
index entries that intersect the query box, or nothing when the extent test
fails. -/
theorem geojson_datasource.cached_handles (e : env) (ds ds1 : geojson_datasource)
    (buffer : String) (fs : List feature)
    (hempty : ds.features_ = []) (hcache : ds.cache_features_ = true)
    (hparse : e.fc_grammar buffer = some fs)
    (hok : geojson_datasource.parse_geojson e ds buffer = .ok ds1) (q : query) :
    handles (ds1.features q) =
      if ds1.extent_.intersects q.bbox then
        ((fs.enumFrom 0).map (fun p => (p.2.envelope, (p.1, 0)))).filter
          (fun v => v.1.intersects q.bbox)
      else [] := by
  rw [geojson_datasource.parse_geojson_ok e ds buffer fs hparse] at hok
  cases hok
  simp only [geojson_datasource.features, hcache, if_true, hempty, List.nil_append,
    geojson_datasource.parse_geojson_loop_values, spatial_index_type.query]
  split_ifs <;> rfl

/-- C1: in cached mode, after `parse_geojson` has stored the parsed features, the
handles of `features(Q)` with a valid envelope are exactly the brute-force scan
of the features (valid envelope intersecting `Q`, closed intervals), each under
its own position; every handle returned is the entry of a feature whose envelope
intersects `Q`; and a feature with a valid envelope is returned (some handle
carries its position) if and only if its envelope intersects `Q`, so the extent
test in `features` never hides such a feature. -/
theorem cached_features_iff_intersects (e : env) (ds : geojson_datasource)
    (buffer : String) (fs : List feature)
    (hempty : ds.features_ = []) (hcache : ds.cache_features_ = true)
    (hparse : e.fc_grammar buffer = some fs) :
    ∃ ds1, geojson_datasource.parse_geojson e ds buffer = .ok ds1 ∧ ds1.features_ = fs ∧
      ds1.cache_features_ = true ∧
      (∀ q : query, (handles (ds1.features q)).filter (fun h => h.1.valid) =
        brute_force_scan fs q.bbox) ∧
      (∀ (q : query) (h : item_type), h ∈ handles (ds1.features q) →
        ∃ i, ∃ hi : i < fs.length, h = ((fs.get ⟨i, hi⟩).envelope, (i, 0)) ∧
          (fs.get ⟨i, hi⟩).envelope.intersects q.bbox = true) ∧
      (∀ (q : query) (i : Nat) (hi : i < fs.length),
        (fs.get ⟨i, hi⟩).envelope.valid = true →
          ((∃ h ∈ handles (ds1.features q), h.2.1 = i) ↔
            (fs.get ⟨i, hi⟩).envelope.intersects q.bbox = true)) ∧
      (∀ (q : query) (i : Nat) (hi : i < fs.length),
        (fs.get ⟨i, hi⟩).envelope.valid = true →
          (((fs.get ⟨i, hi⟩).envelope, (i, 0)) ∈ handles (ds1.features q) ↔
            (fs.get ⟨i, hi⟩).envelope.intersects q.bbox = true)) := by
  have hok := geojson_datasource.parse_geojson_ok e ds buffer fs hparse
  have hH := fun q => geojson_datasource.cached_handles e ds _ buffer fs hempty hcache
    hparse hok q
  have hext : ∀ (q : query) (f : feature), f ∈ fs → f.envelope.valid = true →
      f.envelope.intersects q.bbox = true →
      (geojson_datasource.parse_geojson_loop ⟨ds.extent_, ds.desc_, [], 0⟩
        (ds.features_ ++ fs)).extent_.intersects q.bbox = true := by
    intro q f hf hv hq
    rw [hempty, List.nil_append]
    exact box2d.intersects_of_contains
      (geojson_datasource.parse_geojson_loop_contains_mem fs _ f hf hv) hq
  have hsound : ∀ (q : query) (h : item_type), h ∈ handles (geojson_datasource.features
      { ds with
        features_ := ds.features_ ++ fs
        extent_ := (geojson_datasource.parse_geojson_loop ⟨ds.extent_, ds.desc_, [], 0⟩
          (ds.features_ ++ fs)).extent_
        desc_ := (geojson_datasource.parse_geojson_loop ⟨ds.extent_, ds.desc_, [], 0⟩
          (ds.features_ ++ fs)).desc_
        tree_ := some ⟨(geojson_datasource.parse_geojson_loop ⟨ds.extent_, ds.desc_, [], 0⟩
          (ds.features_ ++ fs)).values⟩ } q) →
      ∃ i, ∃ hi : i < fs.length, h = ((fs.get ⟨i, hi⟩).envelope, (i, 0)) ∧
        (fs.get ⟨i, hi⟩).envelope.intersects q.bbox = true := by
    intro q h hh
    rw [hH q] at hh
    split_ifs at hh with hx
    · rw [List.mem_filter, geojson_datasource.mem_enumFrom_map_iff] at hh
      obtain ⟨⟨i, hi, hEq⟩, hint⟩ := hh
      refine ⟨i, hi, by simpa using hEq, ?_⟩
      rw [hEq] at hint
      exact hint
    · simp at hh
  have hpair : ∀ (q : query) (i : Nat) (hi : i < fs.length),
      (fs.get ⟨i, hi⟩).envelope.valid = true →
      (fs.get ⟨i, hi⟩).envelope.intersects q.bbox = true →
      ((fs.get ⟨i, hi⟩).envelope, (i, 0)) ∈ handles (geojson_datasource.features
      { ds with
        features_ := ds.features_ ++ fs
        extent_ := (geojson_datasource.parse_geojson_loop ⟨ds.extent_, ds.desc_, [], 0⟩
          (ds.features_ ++ fs)).extent_
        desc_ := (geojson_datasource.parse_geojson_loop ⟨ds.extent_, ds.desc_, [], 0⟩
          (ds.features_ ++ fs)).desc_
        tree_ := some ⟨(geojson_datasource.parse_geojson_loop ⟨ds.extent_, ds.desc_, [], 0⟩
          (ds.features_ ++ fs)).values⟩ } q) := by
    intro q i hi hv hq
    rw [hH q, if_pos (hext q _ (List.get_mem fs i hi) hv hq), List.mem_filter,
      geojson_datasource.mem_enumFrom_map_iff]
    exact ⟨⟨i, hi, by simp⟩, hq⟩
  refine ⟨_, hok, by simp [hempty], hcache, ?_, hsound, ?_, ?_⟩
  · intro q
    rw [hH q]
    simp only [brute_force_scan]
    split_ifs with hx
    · rw [List.filter_filter, List.filter_map]
      rfl
    · symm
      rw [List.filter_nil, List.map_eq_nil_iff, List.filter_eq_nil_iff]
      rintro ⟨n, f⟩ hp hcond
      simp only [Bool.and_eq_true] at hcond
      have hf : f ∈ fs := by
        have := List.mem_map_of_mem Prod.snd hp
        rwa [List.enumFrom_map_snd] at this
      exact hx (hext q f hf hcond.1 hcond.2)
  · intro q i hi hv
    constructor
    · rintro ⟨h, hh, hpos⟩
      obtain ⟨j, hj, hEq, hint⟩ := hsound q h hh
      have hji : j = i := by rw [hEq] at hpos; exact hpos
      subst hji
      exact hint
    · intro hq
      exact ⟨_, hpair q i hi hv hq, rfl⟩
  · intro q i hi hv
    constructor
    · intro hh
      obtain ⟨j, hj, hEq, hint⟩ := hsound q _ hh
      have hji : i = j := by
        have := congrArg (fun v : item_type => v.2.1) hEq
        simpa using this
      subst hji
      exact hint
    · exact hpair q i hi hv

/-- C1, the spec scenario: envelopes [0,0,1,1], [5,5,6,6], [10,10,11,11] and the
query box [0.5,0.5,5.5,5.5] give exactly the handles of features 1 and 2, which
is the brute-force scan. -/
theorem cached_features_scenario :
    ∃ ds1, geojson_datasource.parse_geojson (scenario_env scenario_features [] "" none)
        (geojson_datasource.init (scenario_env scenario_features [] "" none) no_parameters)
        "" = .ok ds1 ∧
      handles (ds1.features scenario_query) =
        [(⟨0, 0, 1, 1⟩, (0, 0)), (⟨5, 5, 6, 6⟩, (1, 0))] ∧
      brute_force_scan scenario_features scenario_query.bbox =
        [(⟨0, 0, 1, 1⟩, (0, 0)), (⟨5, 5, 6, 6⟩, (1, 0))] ∧
      (handles (ds1.features scenario_query)).filter (fun h => h.1.valid) =
        brute_force_scan scenario_features scenario_query.bbox := by
  obtain ⟨ds1, h1, _, _, hscan, _⟩ := cached_features_iff_intersects
    (scenario_env scenario_features [] "" none)
    (geojson_datasource.init (scenario_env scenario_features [] "" none) no_parameters)
    "" scenario_features rfl rfl rfl
  refine ⟨ds1, h1, ?_, ?_, hscan scenario_query⟩
  · simp only [geojson_datasource.parse_geojson, scenario_env, Except.ok.injEq] at h1
    subst h1
    simp [geojson_datasource.features, geojson_datasource.init,
      geojson_datasource.parse_geojson_loop, geojson_datasource.parse_geojson_step,
      scenario_features, point_feature, scenario_query, handles, spatial_index_type.query,
      box2d.valid, box2d.intersects, box2d.expand_to_include, List.filter]
    norm_num
  · norm_num [brute_force_scan, scenario_features, point_feature, scenario_query,
      box2d.valid, box2d.intersects, List.enumFrom, List.filter]

/-! ## Cached mode: envelope, schema and index entries -/

/-- C2: with a first feature that has no geometry and a second feature of envelope
[5,5,6,6], `envelope()` after `parse_geojson` is [0,0,6,6], while the union of
the valid envelopes is [5,5,6,6]: the second feature expands the default box
instead of seeding the extent. -/
theorem parse_geojson_extent_late_geometry :
    envelope_union (late_geometry_features.map (fun f => f.envelope)) = some ⟨5, 5, 6, 6⟩ ∧
    ∃ ds1, geojson_datasource.parse_geojson (scenario_env late_geometry_features [] "" none)
        (geojson_datasource.init (scenario_env late_geometry_features [] "" none)
          no_parameters) "" = .ok ds1 ∧
      ds1.envelope = ⟨0, 0, 6, 6⟩ ∧ ds1.envelope ≠ ⟨5, 5, 6, 6⟩ := by
  refine ⟨?_, _, geojson_datasource.parse_geojson_ok _ _ _ _ rfl, ?_, ?_⟩
  · norm_num [envelope_union, late_geometry_features, feature_without_geometry, box2d.valid]
  · norm_num [geojson_datasource.envelope, geojson_datasource.init, scenario_env,
      geojson_datasource.parse_geojson_loop, geojson_datasource.parse_geojson_step,
      late_geometry_features, feature_without_geometry, box2d.valid,
      box2d.expand_to_include]
  · norm_num [geojson_datasource.envelope, geojson_datasource.init, scenario_env,
      geojson_datasource.parse_geojson_loop, geojson_datasource.parse_geojson_step,
      late_geometry_features, feature_without_geometry, box2d.valid,
      box2d.expand_to_include]

/-- C5: with a first feature that has no geometry and a second feature with a valid
envelope and the attributes name and pop, the schema after `parse_geojson` is
empty, while the first feature with a valid envelope has the schema
[(name, String), (pop, Integer)]. -/
theorem parse_geojson_schema_late_geometry :
    first_valid_schema late_geometry_features =
      some [⟨"name", .String⟩, ⟨"pop", .Integer⟩] ∧
    ∃ ds1, geojson_datasource.parse_geojson (scenario_env late_geometry_features [] "" none)
        (geojson_datasource.init (scenario_env late_geometry_features [] "" none)
          no_parameters) "" = .ok ds1 ∧
      ds1.get_descriptor.descriptors = [] := by
  refine ⟨?_, _, geojson_datasource.parse_geojson_ok _ _ _ _ rfl, ?_⟩
  · norm_num [first_valid_schema, late_geometry_features, feature_without_geometry, box2d.valid,
      schema_of, attr_value_converter, List.find?]
  · norm_num [geojson_datasource.get_descriptor, geojson_datasource.init, scenario_env,
      geojson_datasource.parse_geojson_loop, geojson_datasource.parse_geojson_step,
      late_geometry_features, feature_without_geometry, box2d.valid]

/-- C6, as stated, fails: with a first feature of envelope [-5,-5,5,5] and a second
feature without geometry, the bulk build receives two entries although one
feature has a valid envelope, the second entry has an invalid envelope, and the
query box [-2,-2,1,1] returns the handle of the feature without geometry. -/
theorem parse_geojson_indexes_invalid_envelope :
    ∃ ds1 t, geojson_datasource.parse_geojson (scenario_env trailing_empty_features [] "" none)
        (geojson_datasource.init (scenario_env trailing_empty_features [] "" none)
          no_parameters) "" = .ok ds1 ∧
      ds1.tree_ = some t ∧
      t.values = [(⟨-5, -5, 5, 5⟩, (0, 0)), (⟨0, 0, -1, -1⟩, (1, 0))] ∧
      (∃ v ∈ t.values, v.1.valid = false) ∧
      t.values.length = 2 ∧
      trailing_empty_features.countP (fun f => f.envelope.valid) = 1 ∧
      (⟨0, 0, -1, -1⟩, (1, 0)) ∈ handles (ds1.features ⟨⟨-2, -2, 1, 1⟩, []⟩) := by
  refine ⟨_, _, geojson_datasource.parse_geojson_ok _ _ _ _ rfl, rfl, ?_, ?_, ?_, ?_, ?_⟩
  · norm_num [geojson_datasource.init, scenario_env,
      geojson_datasource.parse_geojson_loop, geojson_datasource.parse_geojson_step,
      trailing_empty_features, feature_without_geometry, point_feature, box2d.valid]
  · norm_num [geojson_datasource.init, scenario_env,
      geojson_datasource.parse_geojson_loop, geojson_datasource.parse_geojson_step,
      trailing_empty_features, feature_without_geometry, point_feature, box2d.valid]
  · norm_num [geojson_datasource.init, scenario_env,
      geojson_datasource.parse_geojson_loop, geojson_datasource.parse_geojson_step,
      trailing_empty_features, feature_without_geometry, point_feature, box2d.valid]
  · norm_num [trailing_empty_features, feature_without_geometry, point_feature, box2d.valid,
      List.countP, List.countP.go]
  · norm_num [geojson_datasource.features, geojson_datasource.init, scenario_env,
      geojson_datasource.parse_geojson_loop, geojson_datasource.parse_geojson_step,
      trailing_empty_features, feature_without_geometry, point_feature, box2d.valid,
      handles, spatial_index_type.query, box2d.intersects, List.filter]

/-- C6, amended: in cached mode every parsed feature, whatever its envelope,
contributes exactly one entry (envelope, (position, 0)) to the bulk build, in
order, so the number of entries equals the number of features. -/
theorem parse_geojson_indexes_every_feature (e : env) (ds : geojson_datasource)
    (buffer : String) (fs : List feature)
    (hempty : ds.features_ = []) (hparse : e.fc_grammar buffer = some fs) :
    ∃ ds1 t, geojson_datasource.parse_geojson e ds buffer = .ok ds1 ∧ ds1.tree_ = some t ∧
      t.values = (fs.enumFrom 0).map (fun p => (p.2.envelope, (p.1, 0))) ∧
      t.values.length = fs.length ∧
      ∀ (i : Nat) (hi : i < fs.length), ((fs.get ⟨i, hi⟩).envelope, (i, 0)) ∈ t.values := by
  have hv : (geojson_datasource.parse_geojson_loop ⟨ds.extent_, ds.desc_, [], 0⟩
      (ds.features_ ++ fs)).values =
      (fs.enumFrom 0).map (fun p => (p.2.envelope, (p.1, 0))) := by
    rw [geojson_datasource.parse_geojson_loop_values, hempty]
    simp
  refine ⟨_, _, geojson_datasource.parse_geojson_ok e ds buffer fs hparse, rfl, hv, ?_, ?_⟩
  · simp only [hv, List.length_map, List.enumFrom_length]
  · intro i hi
    simp only [hv]
    rw [geojson_datasource.mem_enumFrom_map_iff]
    exact ⟨i, hi, by simp⟩

/-- C6, amended, on the list with a trailing feature without geometry. -/
theorem parse_geojson_indexes_every_feature_witness :
    ∃ ds1 t, geojson_datasource.parse_geojson (scenario_env trailing_empty_features [] "" none)
        (geojson_datasource.init (scenario_env trailing_empty_features [] "" none)
          no_parameters) "" = .ok ds1 ∧ ds1.tree_ = some t ∧
      t.values = (trailing_empty_features.enumFrom 0).map
        (fun p => (p.2.envelope, (p.1, 0))) ∧
      t.values.length = trailing_empty_features.length ∧
      ∀ (i : Nat) (hi : i < trailing_empty_features.length),
        ((trailing_empty_features.get ⟨i, hi⟩).envelope, (i, 0)) ∈ t.values :=
  parse_geojson_indexes_every_feature (scenario_env trailing_empty_features [] "" none)
    (geojson_datasource.init (scenario_env trailing_empty_features [] "" none) no_parameters)
    "" trailing_empty_features rfl rfl

/-! ## The constructor -/

namespace geojson_datasource

theorem initialise_index_loop_error (e : env) (bs : boxes) (ds : geojson_datasource) :
    initialise_index_loop e ds bs ≠ .error .missing_file_parameter := by
  induction bs generalizing ds with
  | nil => simp [initialise_index_loop]
  | cons item rest ih =>
    simp only [initialise_index_loop]
    cases h : initialise_index_item e ds item with
    | ok ds1 => exact ih ds1
    | error x =>
      simp only [initialise_index_item] at h
      split at h
      · split at h
        · cases h; simp
        · split at h
          · cases h; simp
          · cases h
      · cases h

theorem ingest_error (e : env) (ds : geojson_datasource) (params : parameters) :
    ingest e ds params ≠ .error .missing_file_parameter := by
  have hp : ∀ (d : geojson_datasource) (b : String),
      parse_geojson e d b ≠ .error .missing_file_parameter := by
    intro d b
    simp only [parse_geojson]
    split
    · split <;> simp
    · simp
  simp only [ingest]
  split
  · exact hp _ _
  · split
    · simp
    · split
      · exact hp _ _
      · simp only [initialise_index]
        split
        · simp
        · exact initialise_index_loop_error e _ _

end geojson_datasource

/-- C9: the constructor throws "missing <file> parameter" if and only if neither
`inline` nor `file` is given; with `inline` given, whatever its value, it does
not throw that error. -/
theorem create_missing_file_iff (e : env) (params : parameters) :
    (geojson_datasource.create e params = .error .missing_file_parameter ↔
      params.get_string "inline" = none ∧ params.get_string "file" = none) ∧
    (∀ s, params.get_string "inline" = some s →
      geojson_datasource.create e params ≠ .error .missing_file_parameter) := by
  have key : geojson_datasource.create e params = .error .missing_file_parameter ↔
      params.get_string "inline" = none ∧ params.get_string "file" = none := by
    simp only [geojson_datasource.create, geojson_datasource.read_source]
    cases hi : params.get_string "inline" with
    | some s =>
      simp only [false_and, iff_false, reduceCtorEq]
      exact geojson_datasource.ingest_error e _ params
    | none =>
      cases hf : params.get_string "file" with
      | none => simp
      | some f =>
        simp only [and_false, iff_false, reduceCtorEq]
        cases hb : params.get_string "base" with
        | none => exact geojson_datasource.ingest_error e _ params
        | some b => exact geojson_datasource.ingest_error e _ params
  refine ⟨key, ?_⟩
  intro s hs h
  rw [key, hs] at h
  simp at h

/-- C10: with a non-empty `inline` document the constructor ingests it with
`parse_geojson` and nothing else, and two parameter sets that agree on every
string key other than `cache_features` build the same store, whatever
`cache_features` is in either. -/
theorem create_inline_ignores_cache_features (e : env) (p1 p2 : parameters) (s : String)
    (hsame : ∀ k, k ≠ "cache_features" → p1.get_string k = p2.get_string k)
    (hinline : p1.get_string "inline" = some s) (hne : s.isEmpty = false) :
    geojson_datasource.create e p1 =
        geojson_datasource.parse_geojson e
          { geojson_datasource.init e p1 with inline_string_ := s } s ∧
      geojson_datasource.create e p1 = geojson_datasource.create e p2 := by
  have h2 : p2.get_string "inline" = some s := by
    rw [← hsame "inline" (by decide)]; exact hinline
  have henc : p1.get_string "encoding" = p2.get_string "encoding" :=
    hsame "encoding" (by decide)
  have hinit : geojson_datasource.init e p1 = geojson_datasource.init e p2 := by
    simp only [geojson_datasource.init, henc]
  have h1 : ∀ p : parameters, p.get_string "inline" = some s →
      geojson_datasource.create e p =
        geojson_datasource.parse_geojson e
          { geojson_datasource.init e p with inline_string_ := s } s := by
    intro p hp
    simp only [geojson_datasource.create, geojson_datasource.read_source, hp,
      geojson_datasource.ingest, hne, Bool.not_false, if_true]
  refine ⟨h1 p1 hinline, ?_⟩
  rw [h1 p1 hinline, h1 p2 h2, hinit]

/-- C10 on the inline document "x" with `cache_features` true, false and absent:
the three stores are the same. -/
theorem create_inline_ignores_cache_features_witness :
    geojson_datasource.create (scenario_env scenario_features scenario_boxes "" none)
        (inline_parameters (some true)) =
      geojson_datasource.create (scenario_env scenario_features scenario_boxes "" none)
        (inline_parameters (some false)) ∧
    geojson_datasource.create (scenario_env scenario_features scenario_boxes "" none)
        (inline_parameters (some false)) =
      geojson_datasource.create (scenario_env scenario_features scenario_boxes "" none)
        (inline_parameters none) :=
  ⟨(create_inline_ignores_cache_features
      (scenario_env scenario_features scenario_boxes "" none)
      (inline_parameters (some true)) (inline_parameters (some false)) "x"
      (fun _ _ => rfl) rfl (by decide)).2,
    (create_inline_ignores_cache_features
      (scenario_env scenario_features scenario_boxes "" none)
      (inline_parameters (some false)) (inline_parameters none) "x"
      (fun _ _ => rfl) rfl (by decide)).2⟩

/-! ## Empty feature collection -/

/-- The first half of the constructor writes `inline_string_` and `filename_` only. -/
theorem geojson_datasource.read_source_ok (ds ds0 : geojson_datasource) (params : parameters)
    (h : geojson_datasource.read_source ds params = .ok ds0) :
    ds0 = { ds with inline_string_ := ds0.inline_string_, filename_ := ds0.filename_ } := by
  simp only [geojson_datasource.read_source] at h
  split at h
  · cases h; rfl
  · split at h
    · cases h
    · split at h <;> (cases h; rfl)

/-- C7: a feature collection with zero features loads, from an `inline` string or
from a file, cached or lazy; the dataset envelope stays the default box, which
is invalid (minX > maxX or minY > maxY), and `features(Q)` realizes no handle for
any query box `Q`: it is the empty pointer when the extent test fails and a
feature set over an empty index answer when it passes. -/
theorem create_empty_collection (e : env) (params : parameters) (ds0 : geojson_datasource)
    (buffer : String)
    (hdefault : e.box2d_default.valid = false)
    (hsource : geojson_datasource.read_source (geojson_datasource.init e params) params =
      .ok ds0)
    (hdocument : (if ds0.inline_string_.isEmpty then e.open_file ds0.filename_
      else some ds0.inline_string_) = some buffer)
    (hfeatures : e.fc_grammar buffer = some [])
    (hboxes : e.bbox_grammar buffer = some []) :
    ∃ ds1, geojson_datasource.create e params = .ok ds1 ∧
      ds1.features_ = [] ∧
      ds1.envelope = e.box2d_default ∧
      ds1.envelope.valid = false ∧
      (ds1.envelope.minx_ > ds1.envelope.maxx_ ∨ ds1.envelope.miny_ > ds1.envelope.maxy_) ∧
      ∀ q : query, handles (ds1.features q) = [] ∧
        (ds1.envelope.intersects q.bbox = true → ∃ fs, ds1.features q = some fs) ∧
        (ds1.envelope.intersects q.bbox = false → ds1.features q = none) := by
  have hinvalid : e.box2d_default.minx_ > e.box2d_default.maxx_ ∨
      e.box2d_default.miny_ > e.box2d_default.maxy_ := by
    have h := hdefault
    simp only [box2d.valid, Bool.and_eq_false_imp, decide_eq_true_eq,
      decide_eq_false_iff_not, not_le] at h
    by_cases hx : e.box2d_default.minx_ ≤ e.box2d_default.maxx_
    · exact Or.inr (h hx)
    · exact Or.inl (not_le.mp hx)
  have hds0 := geojson_datasource.read_source_ok _ ds0 params hsource
  have hquery : ∀ (ds1 : geojson_datasource), ds1.extent_ = e.box2d_default →
      ds1.tree_ = some ⟨[]⟩ → ∀ q : query, handles (ds1.features q) = [] ∧
        (ds1.envelope.intersects q.bbox = true → ∃ fs, ds1.features q = some fs) ∧
        (ds1.envelope.intersects q.bbox = false → ds1.features q = none) := by
    intro ds1 hext htree q
    simp only [geojson_datasource.features, geojson_datasource.envelope, hext, htree,
      spatial_index_type.query, List.filter_nil]
    cases hq : e.box2d_default.intersects q.bbox <;>
      cases hcf : ds1.cache_features_ <;> simp [handles, std_sort]
  have hcreate : geojson_datasource.create e params =
      geojson_datasource.ingest e ds0 params := by
    simp only [geojson_datasource.create, hsource]
  rw [hcreate]
  have hext0 : ds0.extent_ = e.box2d_default := by rw [hds0]; rfl
  have hfs0 : ds0.features_ = [] := by rw [hds0]; rfl
  have hparse : ∀ d : geojson_datasource, d.extent_ = e.box2d_default → d.features_ = [] →
      ∃ ds1, geojson_datasource.parse_geojson e d buffer = .ok ds1 ∧
        ds1.features_ = [] ∧ ds1.extent_ = e.box2d_default ∧ ds1.tree_ = some ⟨[]⟩ := by
    intro d hd hf
    refine ⟨_, geojson_datasource.parse_geojson_ok e d buffer [] hfeatures, ?_, ?_, ?_⟩
    · simp [hf]
    · simp [hf, geojson_datasource.parse_geojson_loop, hd]
    · simp [hf, geojson_datasource.parse_geojson_loop]
  have hfinish : ∀ ds1 : geojson_datasource, ds1.features_ = [] →
      ds1.extent_ = e.box2d_default → ds1.tree_ = some ⟨[]⟩ →
      ds1.features_ = [] ∧
      ds1.envelope = e.box2d_default ∧
      ds1.envelope.valid = false ∧
      (ds1.envelope.minx_ > ds1.envelope.maxx_ ∨ ds1.envelope.miny_ > ds1.envelope.maxy_) ∧
      ∀ q : query, handles (ds1.features q) = [] ∧
        (ds1.envelope.intersects q.bbox = true → ∃ fs, ds1.features q = some fs) ∧
        (ds1.envelope.intersects q.bbox = false → ds1.features q = none) := by
    intro ds1 hf hx ht
    have henv : ds1.envelope = e.box2d_default := hx
    refine ⟨hf, henv, ?_, ?_, hquery ds1 hx ht⟩
    · rw [henv]; exact hdefault
    · rw [henv]; exact hinvalid
  cases hempty : ds0.inline_string_.isEmpty with
  | false =>
    rw [hempty] at hdocument
    simp only [Bool.false_eq_true, if_false, Option.some.injEq] at hdocument
    obtain ⟨ds1, h1, hf, hx, ht⟩ := hparse ds0 hext0 hfs0
    refine ⟨ds1, ?_, hfinish ds1 hf hx ht⟩
    simp only [geojson_datasource.ingest, hempty, Bool.not_false, if_true]
    rw [hdocument]
    exact h1
  | true =>
    rw [hempty] at hdocument
    simp only [if_true] at hdocument
    cases hcf : (params.get_boolean "cache_features").getD true with
    | true =>
      obtain ⟨ds1, h1, hf, hx, ht⟩ := hparse { ds0 with cache_features_ := true } hext0 hfs0
      refine ⟨ds1, ?_, hfinish ds1 hf hx ht⟩
      simp only [geojson_datasource.ingest, hempty, Bool.not_true, Bool.false_eq_true,
        if_false, hdocument, hcf, if_true]
      exact h1
    | false =>
      refine ⟨{ ds0 with cache_features_ := false, tree_ := some ⟨[]⟩ }, ?_,
        hfinish _ hfs0 hext0 rfl⟩
      simp only [geojson_datasource.ingest, hempty, Bool.not_true, Bool.false_eq_true,
        if_false, hdocument, hcf, geojson_datasource.initialise_index, hboxes,
        geojson_datasource.initialise_index_loop]

/-- C7 on a concrete empty collection given inline, with the default box
(0,0,-1,-1) and the query box [-2,-2,1,1], which passes the extent test. -/
theorem create_empty_collection_witness :
    (⟨0, 0, -1, -1⟩ : box2d).intersects ⟨-2, -2, 1, 1⟩ = true ∧
    ∃ ds1, geojson_datasource.create (scenario_env [] [] "" none) (inline_parameters none) =
        .ok ds1 ∧
      ds1.features_ = [] ∧
      ds1.envelope = ⟨0, 0, -1, -1⟩ ∧
      ds1.envelope.valid = false ∧
      (ds1.envelope.minx_ > ds1.envelope.maxx_ ∨ ds1.envelope.miny_ > ds1.envelope.maxy_) ∧
      ∀ q : query, handles (ds1.features q) = [] ∧
        (ds1.envelope.intersects q.bbox = true → ∃ fs, ds1.features q = some fs) ∧
        (ds1.envelope.intersects q.bbox = false → ds1.features q = none) :=
  ⟨by norm_num [box2d.intersects],
    create_empty_collection (scenario_env [] [] "" none) (inline_parameters none)
      { geojson_datasource.init (scenario_env [] [] "" none) (inline_parameters none) with
        inline_string_ := "x" } "x"
      (by norm_num [scenario_env, box2d.valid]) rfl (by decide) rfl rfl⟩

/-! ## Lazy mode: sorted handles -/

theorem std_sort_insert_perm {α : Type} (comp : α → α → Bool) (x : α) (l : List α) :
    (std_sort_insert comp x l).Perm (x :: l) := by
  induction l with
  | nil => exact List.Perm.refl _
  | cons y ys ih =>
    simp only [std_sort_insert]
    split_ifs
    · exact (List.Perm.cons y ih).trans (List.Perm.swap x y ys)
    · exact List.Perm.refl _

theorem std_sort_perm {α : Type} (comp : α → α → Bool) (l : List α) :
    (std_sort comp l).Perm l := by
  induction l with
  | nil => exact List.Perm.refl _
  | cons x xs ih =>
    simp only [std_sort, List.foldr_cons]
    exact (std_sort_insert_perm comp x _).trans (List.Perm.cons x ih)

theorem std_sort_insert_offset_sorted (x : item_type) (l : List item_type)
    (h : l.Pairwise (fun a b => a.2.1 ≤ b.2.1)) :
    (std_sort_insert offset_less x l).Pairwise (fun a b => a.2.1 ≤ b.2.1) := by
  induction l with
  | nil => simp [std_sort_insert]
  | cons y ys ih =>
    rw [List.pairwise_cons] at h
    simp only [std_sort_insert]
    split_ifs with hc
    · have hyx : y.2.1 < x.2.1 := by simpa [offset_less] using hc
      rw [List.pairwise_cons]
      refine ⟨?_, ih h.2⟩
      intro z hz
      rcases List.mem_cons.mp ((std_sort_insert_perm offset_less x ys).mem_iff.mp hz) with
        hzx | hzy
      · rw [hzx]; exact le_of_lt hyx
      · exact h.1 z hzy
    · have hxy : x.2.1 ≤ y.2.1 := by simpa [offset_less] using hc
      rw [List.pairwise_cons]
      refine ⟨?_, List.pairwise_cons.mpr h⟩
      intro z hz
      rcases List.mem_cons.mp hz with hzy | hzs
      · rw [hzy]; exact hxy
      · exact le_trans hxy (h.1 z hzs)

theorem std_sort_offset_sorted (l : List item_type) :
    (std_sort offset_less l).Pairwise (fun a b => a.2.1 ≤ b.2.1) := by
  induction l with
  | nil => simp [std_sort]
  | cons x xs ih =>
    simp only [std_sort, List.foldr_cons]
    exact std_sort_insert_offset_sorted x _ ih

/-- C4: in lazy mode, for a query box that intersects the dataset envelope, the
handle sequence given to `large_geojson_featureset` is a permutation of what the
index query reported and is in non-decreasing order of byte offset. -/
theorem lazy_features_sorted_permutation (ds : geojson_datasource) (q : query)
    (t : spatial_index_type)
    (hlazy : ds.cache_features_ = false) (htree : ds.tree_ = some t)
    (hq : ds.extent_.intersects q.bbox = true) :
    ∃ index_array,
      ds.features q = some (.large_geojson_featureset ds.filename_ index_array) ∧
      handles (ds.features q) = index_array ∧
      index_array.Perm (t.query q.bbox) ∧
      index_array.Pairwise (fun a b => a.2.1 ≤ b.2.1) := by
  refine ⟨std_sort offset_less (t.query q.bbox), ?_, ?_, std_sort_perm _ _,
    std_sort_offset_sorted _⟩
  · simp [geojson_datasource.features, hq, htree, hlazy]
  · simp [geojson_datasource.features, hq, htree, hlazy, handles]

/-- C4 on a store whose index reports its three entries out of offset order. -/
theorem lazy_features_sorted_permutation_witness :
    handles (lazy_scenario_store.features ⟨⟨0, 0, 20, 20⟩, []⟩) =
      [(⟨0, 0, 1, 1⟩, (20, 30)), (⟨5, 5, 6, 6⟩, (50, 30)), (⟨10, 10, 11, 11⟩, (80, 30))] ∧
    ∃ index_array,
      lazy_scenario_store.features ⟨⟨0, 0, 20, 20⟩, []⟩ =
        some (.large_geojson_featureset lazy_scenario_store.filename_ index_array) ∧
      handles (lazy_scenario_store.features ⟨⟨0, 0, 20, 20⟩, []⟩) = index_array ∧
      index_array.Perm ((⟨scenario_boxes⟩ : spatial_index_type).query
        (⟨⟨0, 0, 20, 20⟩, []⟩ : query).bbox) ∧
      index_array.Pairwise (fun a b => a.2.1 ≤ b.2.1) :=
  ⟨by norm_num [geojson_datasource.features, lazy_scenario_store, scenario_boxes, handles,
      spatial_index_type.query, box2d.intersects, List.filter, std_sort, std_sort_insert,
      offset_less],
    lazy_features_sorted_permutation lazy_scenario_store ⟨⟨0, 0, 20, 20⟩, []⟩
      ⟨scenario_boxes⟩ rfl rfl (by norm_num [lazy_scenario_store, box2d.intersects])⟩

/-! ## Lazy mode: the extent after `initialise_index` -/

theorem foldl_expand_contains_init (l : List item_type) (a : box2d) :
    (l.foldl (fun acc it => acc.expand_to_include it.1) a).contains a := by
  induction l generalizing a with
  | nil => exact box2d.contains_refl _
  | cons x xs ih =>
    exact box2d.contains_trans (ih _) (box2d.expand_contains_left _ _)

theorem foldl_expand_contains_mem (l : List item_type) (a : box2d) (it : item_type)
    (h : it ∈ l) : (l.foldl (fun acc it => acc.expand_to_include it.1) a).contains it.1 := by
  induction l generalizing a with
  | nil => simp at h
  | cons x xs ih =>
    rcases List.mem_cons.mp h with hx | hxs
    · subst hx
      exact box2d.contains_trans (foldl_expand_contains_init xs _)
        (box2d.expand_contains_right _ _)
    · exact ih _ hxs

theorem foldl_expand_least (l : List item_type) (a c : box2d) (ha : c.contains a)
    (hl : ∀ it ∈ l, c.contains it.1) :
    c.contains (l.foldl (fun acc it => acc.expand_to_include it.1) a) := by
  induction l generalizing a with
  | nil => exact ha
  | cons x xs ih =>
    exact ih _ (box2d.expand_least ha (hl x (List.mem_cons_self _ _)))
      (fun it hit => hl it (List.mem_cons_of_mem _ hit))

theorem foldl_expand_valid (l : List item_type) (a : box2d) (ha : a.valid = true) :
    (l.foldl (fun acc it => acc.expand_to_include it.1) a).valid = true := by
  induction l generalizing a with
  | nil => exact ha
  | cons x xs ih => exact ih _ (box2d.expand_valid _ ha)

theorem envelope_union_seeded (l : List item_type) (a : box2d)
    (hl : ∀ it ∈ l, it.1.valid = true) :
    (l.map (fun it => it.1)).foldl (fun acc b =>
      if b.valid then
        match acc with
        | none => some b
        | some a => some (a.expand_to_include b)
      else acc) (some a) =
    some (l.foldl (fun acc it => acc.expand_to_include it.1) a) := by
  induction l generalizing a with
  | nil => rfl
  | cons x xs ih =>
    have hx : x.1.valid = true := hl x (List.mem_cons_self _ _)
    simp only [List.map_cons, List.foldl_cons, hx, if_true]
    exact ih _ (fun it hit => hl it (List.mem_cons_of_mem _ hit))

/-- With a valid extent every pass of the loop of `initialise_index` expands. -/
theorem geojson_datasource.initialise_index_loop_valid (e : env) (bs : boxes)
    (ds : geojson_datasource) (h : ds.extent_.valid = true) :
    geojson_datasource.initialise_index_loop e ds bs = .ok
      { ds with extent_ := bs.foldl (fun acc it => acc.expand_to_include it.1) ds.extent_ } := by
  induction bs generalizing ds with
  | nil => rfl
  | cons item rest ih =>
    simp only [geojson_datasource.initialise_index_loop,
      geojson_datasource.initialise_index_item, h, Bool.not_true, Bool.false_eq_true,
      if_false, List.foldl_cons]
    exact ih _ (box2d.expand_valid _ h)

/-- The store `initialise_index` leaves behind on a fresh store when the first
box is valid, the file opens and the first feature parses. -/
theorem geojson_datasource.initialise_index_ok (e : env) (ds : geojson_datasource)
    (buffer : String) (item : item_type) (rest : boxes) (file : String) (f : feature)
    (hfresh : ds.extent_.valid = false)
    (hboxes : e.bbox_grammar buffer = some (item :: rest))
    (hitem : item.1.valid = true)
    (hopen : e.open_file ds.filename_ = some file)
    (hfeature : e.feature_grammar ((file.drop item.2.1).take item.2.2) = some f) :
    geojson_datasource.initialise_index e ds buffer = .ok
      { ds with
        tree_ := some ⟨item :: rest⟩
        desc_ := geojson_datasource.add_descriptors ds.desc_ f
        extent_ := rest.foldl (fun acc it => acc.expand_to_include it.1) item.1 } := by
  simp only [geojson_datasource.initialise_index, hboxes,
    geojson_datasource.initialise_index_loop, geojson_datasource.initialise_index_item,
    hfresh, Bool.not_false, if_true, hopen, hfeature]
  exact geojson_datasource.initialise_index_loop_valid e rest
    { ds with tree_ := some ⟨item :: rest⟩, extent_ := item.1,
              desc_ := geojson_datasource.add_descriptors ds.desc_ f } hitem

theorem envelope_union_cons (item : item_type) (rest : boxes)
    (hvalid : ∀ it ∈ item :: rest, it.1.valid = true) :
    envelope_union ((item :: rest).map (fun it => it.1)) =
      some (rest.foldl (fun acc it => acc.expand_to_include it.1) item.1) := by
  have hitem : item.1.valid = true := hvalid item (List.mem_cons_self _ _)
  simp only [envelope_union, List.map_cons, List.foldl_cons, hitem, if_true]
  exact envelope_union_seeded rest item.1
    (fun it hit => hvalid it (List.mem_cons_of_mem _ hit))

theorem foldl_expand_contains_all (item : item_type) (rest : boxes) :
    ∀ it ∈ item :: rest,
      (rest.foldl (fun acc it => acc.expand_to_include it.1) item.1).contains it.1 := by
  intro it hit
  rcases List.mem_cons.mp hit with h | h
  · rw [h]; exact foldl_expand_contains_init rest _
  · exact foldl_expand_contains_mem rest _ it h

/-- C3: in lazy mode, on a fresh store and a non-empty sequence of entries with
valid boxes (the file opening and the first feature parsing), `initialise_index`
succeeds and leaves a valid dataset envelope that encloses every indexed box and
equals the seed-then-expand fold of the boxes, their smallest enclosing box. -/
theorem initialise_index_extent (e : env) (ds : geojson_datasource) (buffer : String)
    (item : item_type) (rest : boxes) (file : String) (f : feature)
    (hfresh : ds.extent_.valid = false)
    (hboxes : e.bbox_grammar buffer = some (item :: rest))
    (hvalid : ∀ it ∈ item :: rest, it.1.valid = true)
    (hopen : e.open_file ds.filename_ = some file)
    (hfeature : e.feature_grammar ((file.drop item.2.1).take item.2.2) = some f) :
    ∃ ds1, geojson_datasource.initialise_index e ds buffer = .ok ds1 ∧
      ds1.tree_ = some ⟨item :: rest⟩ ∧
      ds1.envelope.valid = true ∧
      (∀ it ∈ item :: rest, ds1.envelope.contains it.1) ∧
      ds1.envelope = rest.foldl (fun acc it => acc.expand_to_include it.1) item.1 ∧
      envelope_union ((item :: rest).map (fun it => it.1)) = some ds1.envelope ∧
      (∀ c : box2d, (∀ it ∈ item :: rest, c.contains it.1) → c.contains ds1.envelope) :=
  ⟨_, geojson_datasource.initialise_index_ok e ds buffer item rest file f hfresh hboxes
      (hvalid item (List.mem_cons_self _ _)) hopen hfeature,
    rfl,
    foldl_expand_valid rest item.1 (hvalid item (List.mem_cons_self _ _)),
    foldl_expand_contains_all item rest,
    rfl,
    envelope_union_cons item rest hvalid,
    fun c hc => foldl_expand_least rest item.1 c (hc item (List.mem_cons_self _ _))
      (fun it hit => hc it (List.mem_cons_of_mem _ hit))⟩

/-- C3 on the three-entry scenario: the envelope is [0,0,11,11]. -/
theorem initialise_index_extent_witness :
    (∀ ds1, geojson_datasource.initialise_index
        (scenario_env [] scenario_boxes "" (some (point_feature 1 ⟨10, 10, 11, 11⟩)))
        (geojson_datasource.init
          (scenario_env [] scenario_boxes "" (some (point_feature 1 ⟨10, 10, 11, 11⟩)))
          no_parameters) "" = .ok ds1 → ds1.envelope = ⟨0, 0, 11, 11⟩) ∧
    ∃ ds1, geojson_datasource.initialise_index
        (scenario_env [] scenario_boxes "" (some (point_feature 1 ⟨10, 10, 11, 11⟩)))
        (geojson_datasource.init
          (scenario_env [] scenario_boxes "" (some (point_feature 1 ⟨10, 10, 11, 11⟩)))
          no_parameters) "" = .ok ds1 ∧
      ds1.tree_ = some ⟨scenario_boxes⟩ ∧
      ds1.envelope.valid = true ∧
      (∀ it ∈ scenario_boxes, ds1.envelope.contains it.1) ∧
      ds1.envelope = (scenario_boxes.tail).foldl
        (fun acc it => acc.expand_to_include it.1) ⟨10, 10, 11, 11⟩ ∧
      envelope_union (scenario_boxes.map (fun it => it.1)) = some ds1.envelope ∧
      (∀ c : box2d, (∀ it ∈ scenario_boxes, c.contains it.1) → c.contains ds1.envelope) := by
  have h := initialise_index_extent
    (scenario_env [] scenario_boxes "" (some (point_feature 1 ⟨10, 10, 11, 11⟩)))
    (geojson_datasource.init
      (scenario_env [] scenario_boxes "" (some (point_feature 1 ⟨10, 10, 11, 11⟩)))
      no_parameters) "" (⟨10, 10, 11, 11⟩, (80, 30))
    [(⟨0, 0, 1, 1⟩, (20, 30)), (⟨5, 5, 6, 6⟩, (50, 30))] ""
    (point_feature 1 ⟨10, 10, 11, 11⟩)
    (by norm_num [geojson_datasource.init, scenario_env, box2d.valid]) rfl
    (by norm_num [box2d.valid]) rfl rfl
  refine ⟨?_, h⟩
  obtain ⟨ds1, h1, _, _, _, h5, _⟩ := h
  intro ds2 h2
  rw [h1] at h2
  cases h2
  rw [h5]
  norm_num [box2d.expand_to_include]

/-! ## Geometry type -/

/-- With fewer than `2 ^ 32` features the loop of `get_geometry_type` visits the
first five features (or all, when there are fewer). -/
theorem geojson_datasource.get_geometry_type_eq (to_ds_type : feature → Option Nat → Option Nat)
    (Collection : Nat) (ds : geojson_datasource) (hlen : ds.features_.length < 2 ^ 32) :
    ds.get_geometry_type to_ds_type Collection =
      get_geometry_type_loop to_ds_type Collection (ds.features_.take 5) none 0 := by
  simp only [geojson_datasource.get_geometry_type, Nat.mod_eq_of_lt hlen]
  rcases le_total ds.features_.length 5 with h | h
  · rw [min_eq_left h, List.take_of_length_le (le_refl _), List.take_of_length_le h]
  · rw [min_eq_right h]

/-- Two differing non-zero observed types make the loop answer `Collection`. -/
theorem get_geometry_type_loop_mixed (to_ds_type : feature → Option Nat → Option Nat)
    (gt : feature → Option Nat) (Collection : Nat)
    (hobs : ∀ f r, to_ds_type f r = match gt f with
      | some type => some type
      | none => r)
    (l : List feature) (r : Option Nat)
    (h : ∃ a ∈ r.toList ++ l.filterMap gt, ∃ b ∈ r.toList ++ l.filterMap gt,
      a ≠ 0 ∧ b ≠ 0 ∧ a ≠ b) :
    get_geometry_type_loop to_ds_type Collection l r (r.getD 0) = some Collection := by
  induction l generalizing r with
  | nil =>
    obtain ⟨a, ha, b, hb, _, _, hab⟩ := h
    cases r with
    | none => simp at ha
    | some m =>
      simp only [List.filterMap_nil, List.append_nil, Option.toList, List.mem_singleton] at ha hb
      exact absurd (ha.trans hb.symm) hab
  | cons f rest ih =>
    simp only [get_geometry_type_loop, hobs]
    cases hg : gt f with
    | none =>
      simp only [List.filterMap_cons, hg] at h
      cases r with
      | none => exact ih none h
      | some m =>
        simp only [Option.getD_some, ne_eq, not_true_eq_false, and_false, if_false]
        exact ih (some m) h
    | some t =>
      simp only [List.filterMap_cons, hg] at h
      simp only []
      split_ifs with hc
      · rfl
      · refine ih (some t) ?_
        obtain ⟨a, ha, b, hb, ha0, hb0, hab⟩ := h
        have key : ∀ x, x ≠ 0 → x ∈ r.toList ++ t :: List.filterMap gt rest →
            x ∈ (some t).toList ++ List.filterMap gt rest := by
          intro x hx0 hx
          cases r with
          | none => simpa using hx
          | some m =>
            simp only [Option.toList, List.singleton_append, List.mem_cons] at hx ⊢
            rcases hx with hxm | hx
            · left
              simp only [Option.getD_some, gt_iff_lt, ne_eq, not_and, not_not] at hc
              rw [hxm]
              exact hc (Nat.pos_of_ne_zero (hxm ▸ hx0))
            · exact hx
        exact ⟨a, key a ha0 ha, b, key b hb0 hb, ha0, hb0, hab⟩

/-- When all observed types agree the loop answers that type, and no type when
nothing was observed. -/
theorem get_geometry_type_loop_single (to_ds_type : feature → Option Nat → Option Nat)
    (gt : feature → Option Nat) (Collection : Nat)
    (hobs : ∀ f r, to_ds_type f r = match gt f with
      | some type => some type
      | none => r)
    (l : List feature) (r : Option Nat)
    (h : ∀ a ∈ r.toList ++ l.filterMap gt, ∀ b ∈ r.toList ++ l.filterMap gt, a = b) :
    get_geometry_type_loop to_ds_type Collection l r (r.getD 0) =
      (r.toList ++ l.filterMap gt).head? := by
  induction l generalizing r with
  | nil => cases r <;> simp [get_geometry_type_loop]
  | cons f rest ih =>
    simp only [get_geometry_type_loop, hobs]
    cases hg : gt f with
    | none =>
      simp only [List.filterMap_cons, hg] at h ⊢
      cases r with
      | none => exact ih none h
      | some m =>
        simp only [Option.getD_some, ne_eq, not_true_eq_false, and_false, if_false]
        exact ih (some m) h
    | some t =>
      simp only [List.filterMap_cons, hg] at h ⊢
      have hrt : ∀ m, r = some m → m = t := by
        intro m hm
        subst hm
        exact h m (by simp) t (by simp)
      have hc : ¬ (r.getD 0 > 0 ∧ r.getD 0 ≠ t) := by
        cases r with
        | none => simp
        | some m => simp [hrt m rfl]
      rw [if_neg hc]
      have h2 : ∀ a ∈ (some t).toList ++ List.filterMap gt rest,
          ∀ b ∈ (some t).toList ++ List.filterMap gt rest, a = b := by
        intro a ha b hb
        have hsub : ∀ x, x ∈ (some t).toList ++ List.filterMap gt rest →
            x ∈ r.toList ++ t :: List.filterMap gt rest := by
          intro x hx
          simp only [Option.toList, List.singleton_append] at hx
          exact List.mem_append_right _ hx
        exact h a (hsub a ha) b (hsub b hb)
      have := ih (some t) h2
      simp only [Option.getD_some] at this
      rw [this]
      cases r with
      | none => simp
      | some m => simp [hrt m rfl]

/-- With the previous type `m` and the next type `t` in front, the order condition
"an earlier type is zero or equals every later type" splits off its head. -/
theorem pairwise_zero_or_eq_cons_cons (m t : Nat) (rest : List Nat) :
    (m :: t :: rest).Pairwise (fun a b => a = 0 ∨ a = b) ↔
      (m = 0 ∨ m = t) ∧ (t :: rest).Pairwise (fun a b => a = 0 ∨ a = b) := by
  constructor
  · intro h
    rw [List.pairwise_cons] at h
    exact ⟨h.1 t (List.mem_cons_self _ _), h.2⟩
  · rintro ⟨hm, h⟩
    rw [List.pairwise_cons]
    refine ⟨?_, h⟩
    intro x hx
    rcases hm with hm | hm
    · exact Or.inl hm
    · rcases List.mem_cons.mp hx with hxt | hxr
      · right; rw [hxt]; exact hm
      · rw [List.pairwise_cons] at h
        rcases h.1 x hxr with h0 | hEq
        · left; rw [hm]; exact h0
        · right; rw [hm]; exact hEq

/-- The loop of `get_geometry_type` in terms of the observed types: it answers the
last observed type when every earlier observed type is zero or equals every later
one, and `Collection` otherwise. -/
theorem get_geometry_type_loop_exact (to_ds_type : feature → Option Nat → Option Nat)
    (gt : feature → Option Nat) (Collection : Nat)
    (hobs : ∀ f r, to_ds_type f r = match gt f with
      | some type => some type
      | none => r)
    (l : List feature) (r : Option Nat) :
    ((r.toList ++ l.filterMap gt).Pairwise (fun a b => a = 0 ∨ a = b) →
        get_geometry_type_loop to_ds_type Collection l r (r.getD 0) =
          (r.toList ++ l.filterMap gt).getLast?) ∧
      (¬ (r.toList ++ l.filterMap gt).Pairwise (fun a b => a = 0 ∨ a = b) →
        get_geometry_type_loop to_ds_type Collection l r (r.getD 0) = some Collection) := by
  induction l generalizing r with
  | nil =>
    cases r with
    | none => simp [get_geometry_type_loop]
    | some m => simp [get_geometry_type_loop]
  | cons f rest ih =>
    simp only [get_geometry_type_loop, hobs]
    cases hg : gt f with
    | none =>
      simp only [List.filterMap_cons, hg]
      cases r with
      | none => exact ih none
      | some m =>
        simp only [Option.getD_some, ne_eq, not_true_eq_false, and_false, if_false]
        exact ih (some m)
    | some t =>
      simp only [List.filterMap_cons, hg]
      cases r with
      | none =>
        simp only [Option.getD_none, gt_iff_lt, lt_self_iff_false, false_and, if_false]
        exact ih (some t)
      | some m =>
        simp only [Option.getD_some, Option.toList, List.singleton_append]
        have hsplit := pairwise_zero_or_eq_cons_cons m t (List.filterMap gt rest)
        have ih2 := ih (some t)
        simp only [Option.getD_some, Option.toList, List.singleton_append] at ih2
        by_cases hc : m > 0 ∧ m ≠ t
        · rw [if_pos hc]
          refine ⟨fun hp => ?_, fun _ => rfl⟩
          rcases (hsplit.mp hp).1 with h0 | hEq
          · exact absurd h0 (Nat.pos_iff_ne_zero.mp hc.1)
          · exact absurd hEq hc.2
        · rw [if_neg hc]
          have hm : m = 0 ∨ m = t := by
            by_cases h0 : m = 0
            · exact Or.inl h0
            · right
              by_contra hne
              exact hc ⟨Nat.pos_of_ne_zero h0, hne⟩
          refine ⟨fun hp => ?_, fun hnp => ?_⟩
          · rw [ih2.1 (hsplit.mp hp).2, List.getLast?_cons_cons]
          · exact ih2.2 (fun hp => hnp (hsplit.mpr ⟨hm, hp⟩))

/-- C8, as stated, fails: a point feature followed by a feature of type code 0
makes `get_geometry_type` answer `Collection` (code 4), although the observed
types are 1 and 0, with a single non-zero type among them. -/
theorem get_geometry_type_point_then_zero :
    (point_then_zero_store.features_.take 5).filterMap (fun f => f.paths.getLast?) = [1, 0] ∧
    (¬ ∃ a ∈ [1, 0], ∃ b ∈ [1, 0], a ≠ 0 ∧ b ≠ 0 ∧ a ≠ b) ∧
    point_then_zero_store.get_geometry_type last_path_type 4 = some 4 ∧
    point_then_zero_store.get_geometry_type last_path_type 4 ≠ some 1 := by
  refine ⟨by decide, by decide, by decide, by decide⟩

/-- C8, amended: for a cached feature list (of fewer than `2 ^ 32` features, the
range of `unsigned num_features`), where `gt f` is the geometry type `to_ds_type`
reports for feature `f` (no type for a feature without geometry):
`get_geometry_type` depends on the first five features only; it answers
`Collection` as soon as some observed type differs from a non-zero type observed
before it, in particular as soon as two differing non-zero types have been
observed, already on the prefix where that happens; and when every earlier
observed type is zero or equals every later one, it answers the last observed
type, and no type when none was observed. -/
theorem get_geometry_type_first_five (to_ds_type : feature → Option Nat → Option Nat)
    (gt : feature → Option Nat) (Collection : Nat) (ds : geojson_datasource)
    (hobs : ∀ f r, to_ds_type f r = match gt f with
      | some type => some type
      | none => r)
    (hlen : ds.features_.length < 2 ^ 32) :
    ds.get_geometry_type to_ds_type Collection =
        geojson_datasource.get_geometry_type to_ds_type Collection
          { ds with features_ := ds.features_.take 5 } ∧
      (¬ ((ds.features_.take 5).filterMap gt).Pairwise (fun a b => a = 0 ∨ a = b) →
        ds.get_geometry_type to_ds_type Collection = some Collection) ∧
      (((ds.features_.take 5).filterMap gt).Pairwise (fun a b => a = 0 ∨ a = b) →
        ds.get_geometry_type to_ds_type Collection =
          ((ds.features_.take 5).filterMap gt).getLast?) ∧
      ((∃ a ∈ (ds.features_.take 5).filterMap gt, ∃ b ∈ (ds.features_.take 5).filterMap gt,
          a ≠ 0 ∧ b ≠ 0 ∧ a ≠ b) →
        ds.get_geometry_type to_ds_type Collection = some Collection) ∧
      (∀ n, ¬ (((ds.features_.take 5).take n).filterMap gt).Pairwise
          (fun a b => a = 0 ∨ a = b) →
        get_geometry_type_loop to_ds_type Collection ((ds.features_.take 5).take n) none 0 =
          some Collection) ∧
      ((∀ a ∈ (ds.features_.take 5).filterMap gt, ∀ b ∈ (ds.features_.take 5).filterMap gt,
          a = b) →
        ds.get_geometry_type to_ds_type Collection =
          ((ds.features_.take 5).filterMap gt).head?) := by
  have heq := geojson_datasource.get_geometry_type_eq to_ds_type Collection ds hlen
  refine ⟨?_, ?_, ?_, ?_, ?_, ?_⟩
  · have hlen5 : (ds.features_.take 5).length < 2 ^ 32 :=
      lt_of_le_of_lt (List.length_take_le _ _) (by norm_num)
    rw [heq, geojson_datasource.get_geometry_type_eq to_ds_type Collection
      { ds with features_ := ds.features_.take 5 } hlen5]
    simp only [List.take_take, min_self]
  · intro h
    rw [heq]
    exact (get_geometry_type_loop_exact to_ds_type gt Collection hobs _ none).2
      (by simpa using h)
  · intro h
    rw [heq]
    have := (get_geometry_type_loop_exact to_ds_type gt Collection hobs
      (ds.features_.take 5) none).1 (by simpa using h)
    simpa using this
  · intro h
    rw [heq]
    exact get_geometry_type_loop_mixed to_ds_type gt Collection hobs _ none (by simpa using h)
  · intro n h
    exact (get_geometry_type_loop_exact to_ds_type gt Collection hobs _ none).2
      (by simpa using h)
  · intro h
    rw [heq]
    have := get_geometry_type_loop_single to_ds_type gt Collection hobs
      (ds.features_.take 5) none (by simpa using h)
    simpa using this

/-- C8, amended, on the spec scenario: three point features give Point (type
code 1). -/
theorem get_geometry_type_three_points :
    cached_scenario_store.get_geometry_type last_path_type 4 = some 1 := by
  have h := (get_geometry_type_first_five last_path_type (fun f => f.paths.getLast?) 4
    cached_scenario_store (fun _ _ => rfl) (by decide)).2.2.1
    (by decide)
  rw [h]
  decide

/-! ## Cached mode: where envelope and schema do follow the first valid feature -/

namespace geojson_datasource

/-- The descriptors `add_descriptors` appends are the (name, type) list of the
feature, in order. -/
theorem add_descriptors_descriptors (f : feature) (d : layer_descriptor) :
    (add_descriptors d f).descriptors = d.descriptors ++ schema_of f := by
  have h : ∀ (kvs : List (String × value)) (d : layer_descriptor),
      (kvs.foldl (fun d kv => d.add_descriptor ⟨kv.1, attr_value_converter kv.2⟩) d).descriptors
        = d.descriptors ++ kvs.map (fun kv => ⟨kv.1, attr_value_converter kv.2⟩) := by
    intro kvs
    induction kvs with
    | nil => intro d; simp
    | cons kv kvs ih =>
      intro d
      rw [List.foldl_cons, ih]
      simp [layer_descriptor.add_descriptor]
  exact h f.kvs d

/-- Past the first pass the loop of `parse_geojson` expands the extent by every
valid envelope and leaves the schema alone. -/
theorem parse_geojson_loop_later (fs : List feature) (s : parse_state)
    (h : 0 < s.geometry_index) :
    (parse_geojson_loop s fs).extent_ =
        fs.foldl (fun acc f => if f.envelope.valid then acc.expand_to_include f.envelope
          else acc) s.extent_ ∧
      (parse_geojson_loop s fs).desc_ = s.desc_ := by
  induction fs generalizing s with
  | nil => exact ⟨rfl, rfl⟩
  | cons f fs ih =>
    have h1 : 0 < (parse_geojson_step s f).geometry_index := by
      rw [parse_geojson_step_geometry_index]; omega
    have hne : s.geometry_index ≠ 0 := by omega
    rw [parse_geojson_loop_cons, (ih _ h1).1, (ih _ h1).2, List.foldl_cons]
    by_cases hv : f.envelope.valid = true
    · simp [parse_geojson_step, hv, hne]
    · simp [parse_geojson_step, hv]

theorem envelope_union_from (l : List feature) (a : box2d) :
    (l.map (fun f => f.envelope)).foldl (fun acc b =>
      if b.valid then
        match acc with
        | none => some b
        | some a => some (a.expand_to_include b)
      else acc) (some a) =
    some (l.foldl (fun acc f => if f.envelope.valid then acc.expand_to_include f.envelope
      else acc) a) := by
  induction l generalizing a with
  | nil => rfl
  | cons x xs ih =>
    by_cases hx : x.envelope.valid = true
    · simp only [List.map_cons, List.foldl_cons, hx, if_true]
      exact ih _
    · simp only [List.map_cons, List.foldl_cons, hx, if_false, Bool.false_eq_true]
      exact ih _

/-- When the first parsed feature has a valid envelope, the extent after the loop
of `parse_geojson` is the union of the valid envelopes and the schema is that of
the first feature. -/
theorem parse_geojson_loop_first_valid (d : box2d) (desc : layer_descriptor) (f : feature)
    (fs : List feature) (hv : f.envelope.valid = true) :
    envelope_union ((f :: fs).map (fun f => f.envelope)) =
        some (parse_geojson_loop ⟨d, desc, [], 0⟩ (f :: fs)).extent_ ∧
      (parse_geojson_loop ⟨d, desc, [], 0⟩ (f :: fs)).desc_ = add_descriptors desc f := by
  have h1 : 0 < (parse_geojson_step ⟨d, desc, [], 0⟩ f).geometry_index := by
    rw [parse_geojson_step_geometry_index]; omega
  rw [parse_geojson_loop_cons, (parse_geojson_loop_later fs _ h1).1,
    (parse_geojson_loop_later fs _ h1).2]
  simp only [envelope_union, List.map_cons, List.foldl_cons, hv, if_true]
  rw [envelope_union_from]
  simp [parse_geojson_step, hv]

/-- Whatever invalid box a default-constructed `box2d` is and whatever invalid
envelope a feature without geometry has, some feature list that starts with a
feature without geometry gets an extent that is not the union of its valid
envelopes. -/
theorem parse_geojson_loop_late_geometry (d v : box2d) (desc : layer_descriptor)
    (kvs : List (String × value)) :
    ∃ b : box2d, b.valid = true ∧
      (v.valid = false →
        envelope_union ([(⟨1, [], v, []⟩ : feature), ⟨2, kvs, b, [1]⟩].map
          (fun f => f.envelope)) = some b) ∧
      (v.valid = false →
        (parse_geojson_loop ⟨d, desc, [], 0⟩ [⟨1, [], v, []⟩, ⟨2, kvs, b, [1]⟩]).extent_ ≠ b) ∧
      (v.valid = false →
        (parse_geojson_loop ⟨d, desc, [], 0⟩ [⟨1, [], v, []⟩, ⟨2, kvs, b, [1]⟩]).desc_ = desc) := by
  have hb : (⟨d.minx_ + 1, 0, d.minx_ + 1, 0⟩ : box2d).valid = true := by
    simp [box2d.valid]
  refine ⟨⟨d.minx_ + 1, 0, d.minx_ + 1, 0⟩, hb, ?_, ?_, ?_⟩
  · intro hv
    simp [envelope_union, hv, hb]
  · intro hv hEq
    have hx := congrArg box2d.minx_ hEq
    simp [parse_geojson_loop, parse_geojson_step, hv, hb, box2d.expand_to_include] at hx
  · intro hv
    simp [parse_geojson_loop, parse_geojson_step, hv, hb]

end geojson_datasource

end mapnik
